import Mathlib

/-!
Verification of the MomentumWeekly core against its specification.

The development shallowly embeds the two cores of the repository:

* the Signal Engine / Backtest Simulator (`compute_weekly_signals` /
  `simulate_backtest` in `main.py` and `send_weekly_momentum_signal.py`),
  working over an explicit model `PFloat` of IEEE-754 doubles
  (`nan` / `pinf` / `ninf` / exact finite values as rationals), because the
  source's NaN- and infinity-propagation (pandas `dropna`, `fillna`,
  division by zero) is load-bearing for several claims; and

* the live Trade Lifecycle Manager (`trade_manager_all_nse.py`): the VWAP
  cache (`calculate_intraday_vwap_pair`), the entry/exit phases of the main
  scan loop, and the JSON/CSV persistence round trip.

Floating-point values are modelled as exact rationals: the source performs
only arithmetic whose rounding is irrelevant to every claim (all concrete
inputs used below are exactly representable and all claimed properties are
order/definedness properties, or exact identities such as weights summing
to 1, which hold exactly in ℚ and hence inside any stated tolerance).

Sorting: pandas `Series.sort_values(ascending=False)` is implemented by
`nargsort`, which reverses the array, argsorts it ascending with the
caller's kind (here the default `'quicksort'`, numpy's introsort), and
reverses the resulting indexer.  Introsort is NOT stable beyond its
small-array insertion-sort path, so the order among TIED scores is
implementation-defined for realistic row sizes.  The embedding must still
pick some definite order, and uses a stable sort (`List.insertionSort` of
the reversed list, reversed); every property proved through it below —
which record a backtest step appends, which weight values are emitted,
that NaN scores are excluded and an infinite score is included and ranks
above all finite scores — depends only on the multiset of selected values
or on the value ordering, never on the order among tied scores, so the
theorems are no easier over this embedding than over the program.  No
tie-order property is asserted anywhere.  Python's
`sorted(..., reverse=True)` (Timsort) IS stable at every size and is
embedded by a stable sort via a "greater or equal" relation.
-/

attribute [local semireducible] Rat.add Rat.mul Rat.inv Rat.sub Rat.ofScientific

/-- Model of an IEEE-754 double as used by numpy/pandas: NaN, the two
infinities, or an exact finite value (represented as a rational). -/
inductive PFloat where
  | nan : PFloat
  | pinf : PFloat
  | ninf : PFloat
  | fin : ℚ → PFloat
deriving DecidableEq

/-- Whether a float is NaN (the value pandas `dropna`/`fillna`/`sum(skipna)`
act on; infinities are NOT NaN). -/
def PFloat.isNan : PFloat → Bool
  | .nan => true
  | _ => false

/-- IEEE addition on the float model. -/
def padd : PFloat → PFloat → PFloat
  | .nan, _ => .nan
  | _, .nan => .nan
  | .pinf, .ninf => .nan
  | .ninf, .pinf => .nan
  | .pinf, _ => .pinf
  | _, .pinf => .pinf
  | .ninf, _ => .ninf
  | _, .ninf => .ninf
  | .fin a, .fin b => .fin (a + b)

/-- IEEE negation on the float model. -/
def pneg : PFloat → PFloat
  | .nan => .nan
  | .pinf => .ninf
  | .ninf => .pinf
  | .fin a => .fin (-a)

/-- IEEE subtraction on the float model. -/
def psub (x y : PFloat) : PFloat := padd x (pneg y)

/-- IEEE multiplication on the float model (`inf * 0 = nan`). -/
def pmul : PFloat → PFloat → PFloat
  | .nan, _ => .nan
  | _, .nan => .nan
  | .pinf, .pinf => .pinf
  | .pinf, .ninf => .ninf
  | .ninf, .pinf => .ninf
  | .ninf, .ninf => .pinf
  | .pinf, .fin b => if b = 0 then .nan else if 0 < b then .pinf else .ninf
  | .fin a, .pinf => if a = 0 then .nan else if 0 < a then .pinf else .ninf
  | .ninf, .fin b => if b = 0 then .nan else if 0 < b then .ninf else .pinf
  | .fin a, .ninf => if a = 0 then .nan else if 0 < a then .ninf else .pinf
  | .fin a, .fin b => .fin (a * b)

/-- IEEE division on the float model: `x / 0` is a signed infinity for
`x ≠ 0` and NaN for `x = 0`; `inf / inf = nan`; `x / inf = 0`.  (The model
has no signed zero, so a zero divisor is treated as `+0`, which matches
every occurrence in the source: prices, volumes and variances are produced
as plain non-negative zeros.) -/
def pdiv : PFloat → PFloat → PFloat
  | .nan, _ => .nan
  | _, .nan => .nan
  | .pinf, .pinf => .nan
  | .pinf, .ninf => .nan
  | .ninf, .pinf => .nan
  | .ninf, .ninf => .nan
  | .pinf, .fin b => if b < 0 then .ninf else .pinf
  | .ninf, .fin b => if b < 0 then .pinf else .ninf
  | .fin _, .pinf => .fin 0
  | .fin _, .ninf => .fin 0
  | .fin a, .fin b =>
    if b = 0 then (if a = 0 then .nan else if 0 < a then .pinf else .ninf)
    else .fin (a / b)

/-- IEEE strict `<` as used by Python/numpy comparisons: any comparison with
NaN is false. -/
def pltB : PFloat → PFloat → Bool
  | .nan, _ => false
  | _, .nan => false
  | .pinf, _ => false
  | _, .pinf => true
  | .ninf, .ninf => false
  | .ninf, .fin _ => true
  | .fin _, .ninf => false
  | .fin a, .fin b => decide (a < b)

/-- Total comparison used to model numpy's ascending argsort order:
`-inf < finite (by value) < +inf < nan` (numpy sorts NaN last; the
backtest sorts only after `dropna`, so the NaN clause is never reached). -/
def sortLe : PFloat → PFloat → Bool
  | _, .nan => true
  | .nan, _ => false
  | .ninf, _ => true
  | _, .ninf => false
  | _, .pinf => true
  | .pinf, _ => false
  | .fin a, .fin b => decide (a ≤ b)

/-- pandas `Series.sum()` with default `skipna=True`: NaN entries are
dropped, the remaining entries are accumulated from `0.0`. -/
def psum (l : List PFloat) : PFloat :=
  (l.filter (fun x => !x.isNan)).foldl padd (.fin 0)

/-- Number of non-NaN entries (pandas `count`, the denominator of `mean`). -/
def pcount (l : List PFloat) : ℕ :=
  (l.filter (fun x => !x.isNan)).length

/-- pandas `Series.mean()`: sum of the non-NaN entries divided by their
count; the mean of an empty selection is `0.0 / 0 = NaN`. -/
def pmean (l : List PFloat) : PFloat :=
  pdiv (psum l) (.fin (pcount l))

/-- `fillna(0)`: replace NaN by `0.0` (infinities are untouched). -/
def fillna0 : PFloat → PFloat
  | .nan => .fin 0
  | x => x

/-- A score row: instrument name paired with its (float) score for the
week, in the matrix's instrument (column) order. -/
abbrev ScoreRow := List (String × PFloat)

/-- Ascending sort relation on score-row entries (by score). -/
def rowLe (p q : String × PFloat) : Prop := sortLe p.2 q.2 = true

instance : DecidableRel rowLe :=
  fun p q => inferInstanceAs (Decidable (sortLe p.2 q.2 = true))

instance : IsTotal (String × PFloat) rowLe where
  total p q := by
    unfold rowLe
    cases hp : p.2 <;> cases hq : q.2 <;> simp [sortLe] <;> exact le_total _ _

instance : IsTrans (String × PFloat) rowLe where
  trans p q v hpq hqv := by
    unfold rowLe at hpq hqv ⊢
    cases hp : p.2 <;> cases hq : q.2 <;> cases hv : v.2 <;>
      rw [hp, hq] at hpq <;> rw [hq, hv] at hqv <;>
      simp [sortLe] at hpq hqv ⊢ <;> exact le_trans hpq hqv

/-- pandas `Series.dropna()`: drop the NaN entries (infinite scores are
kept). -/
def dropna (row : ScoreRow) : ScoreRow :=
  row.filter (fun p => !p.2.isNan)

/-- pandas `Series.sort_values(ascending=False)`: `nargsort` reverses the
array, argsorts it ascending, and reverses the indexer again.  The
source's default `kind='quicksort'` (numpy introsort) leaves the order
among equal scores implementation-defined, so this embedding's choice of
a stable ascending sort fixes one definite tie order; no theorem below
relies on the order among tied scores — only on which values are selected
and on the ordering between distinct values, which introsort guarantees
the same way. -/
def sort_values_desc (l : ScoreRow) : ScoreRow :=
  (List.insertionSort rowLe l.reverse).reverse

/-- `cur_scores.dropna().sort_values(ascending=False).head(top_n)` from
`simulate_backtest`: the week's selected instruments with their scores. -/
def select_top (row : ScoreRow) (top_n : ℕ) : ScoreRow :=
  (sort_values_desc (dropna row)).take top_n

/-- `weights = top / top.sum()` from `simulate_backtest`: each selected
score divided by the (skipna) sum of the selected scores. -/
def mk_weights (sel : ScoreRow) : ScoreRow :=
  sel.map (fun p => (p.1, pdiv p.2 (psum (sel.map Prod.snd))))

/-- `score = momentum / volatility` (`compute_weekly_signals`): numpy float
division, so an undefined (NaN) input propagates, `0/0` is NaN, and a
nonzero momentum over a zero volatility is a signed infinity. -/
def score_of (momentum volatility : PFloat) : PFloat :=
  pdiv momentum volatility

/-- The daily close-price frame: its ordered column (symbol) list and its
rows, one `(date, values)` pair per trading day, values aligned with
`cols`.  Missing observations are NaN cells, exactly as in the source's
outer-joined frame. -/
structure DailyFrame where
  cols : List String
  rows : List (ℤ × List PFloat)
deriving DecidableEq

/-- Position of a symbol among the frame's columns (`none` models the
`KeyError` raised by `daily.loc[date, syms]` for an unknown symbol). -/
def DailyFrame.colIdx (df : DailyFrame) (s : String) : Option ℕ :=
  df.cols.indexOf? s

/-- Cell of the frame at row `r`, column `j` (NaN when absent). -/
def DailyFrame.cellAt (df : DailyFrame) (r j : ℕ) : PFloat :=
  match df.rows.get? r with
  | some p => p.2.getD j .nan
  | none => .nan

/-- `daily.index.get_loc(date)` guarded by `date in daily.index`: the first
row whose date matches, if any. -/
def lookupRow (df : DailyFrame) (d : ℤ) : Option ℕ :=
  (df.rows.map Prod.fst).indexOf? d

/-- `daily.loc[...]` / `daily.iloc[r][syms]`: the prices of the given
symbols at row `r`; `none` models the `KeyError` (caught by the source's
`except` clause) when some symbol is not a column. -/
def rowPrices (df : DailyFrame) (r : ℕ) (syms : List String) : Option (List PFloat) :=
  syms.mapM (fun s => (df.colIdx s).map (fun j => df.cellAt r j))

/-- One record of the backtest output: the `dates`, `returns`,
`cash_flags` and `weights_rec` entries appended for one simulated week. -/
structure BacktestRec where
  date : ℤ
  ret : PFloat
  cash : Bool
  wts : Option ScoreRow
deriving DecidableEq

/-- One iteration of the `simulate_backtest` loop body for signal date
`signal_date` with score row `row`.  Every control path of the source
appends exactly one entry to each of the four output lists; the record
returned here is that entry.  The realization date is
`signal_date + timedelta(days=3)`.  `avg_score < thresh` is an IEEE
comparison (false when the selection is empty and the mean is NaN).  The
three failure paths — realization date absent from the index, entry-price
lookup failure (`KeyError`, caught), fewer than 5 rows of forward data —
all append a `0.0` return with `cash_flags.append(False)`, keeping the
weight vector that was recorded before the lookups. -/
def simulate_backtest_step (daily : DailyFrame) (top_n : ℕ) (thresh : ℚ)
    (signal_date : ℤ) (row : ScoreRow) : BacktestRec :=
  let next_mon := signal_date + 3
  let top := select_top row top_n
  let avg_score := pmean (top.map Prod.snd)
  if pltB avg_score (.fin thresh) then
    ⟨next_mon, .fin 0, true, none⟩
  else
    let weights := mk_weights top
    match lookupRow daily next_mon with
    | none => ⟨next_mon, .fin 0, false, some weights⟩
    | some r =>
      match rowPrices daily r (weights.map Prod.fst) with
      | none => ⟨next_mon, .fin 0, false, some weights⟩
      | some mon_prices =>
        if daily.rows.length ≤ r + 5 then ⟨next_mon, .fin 0, false, some weights⟩
        else
          match rowPrices daily (r + 5) (weights.map Prod.fst) with
          | none => ⟨next_mon, .fin 0, false, some weights⟩
          | some nxt_prices =>
            let rets := (nxt_prices.zip mon_prices).map
              (fun p => fillna0 (psub (pdiv p.1 p.2) (.fin 1)))
            let retv := psum ((rets.zip (weights.map Prod.snd)).map
              (fun p => pmul p.1 p.2))
            ⟨next_mon, retv, false, some weights⟩

/-- The full `simulate_backtest` loop: one record for every week index `i`
from `lookback` to `len(score) - 1`. -/
def simulate_backtest (daily : DailyFrame) (score : List (ℤ × ScoreRow))
    (lookback top_n : ℕ) (thresh : ℚ) : List BacktestRec :=
  (score.drop lookback).map (fun p => simulate_backtest_step daily top_n thresh p.1 p.2)

/-! ### Trade Lifecycle Manager (`trade_manager_all_nse.py`)

Times are modelled as rational seconds (the source subtracts `datetime`s
and compares `total_seconds()` to the TTL).  Prices are exact rationals.
The external collaborators — quote fetch, token resolution, minute-bar
fetch, live LTP — enter as explicit parameters of the cycle functions. -/

/-- `MIN_PCT_CHANGE = 2.0` (entry momentum threshold, percent). -/
def MIN_PCT_CHANGE : ℚ := 2

/-- `STOP_LOSS_PCT = 1.0` (stop-loss, percent below entry). -/
def STOP_LOSS_PCT : ℚ := 1

/-- `MAX_TRADES = 5` (maximum simultaneously open positions). -/
def MAX_TRADES : ℕ := 5

/-- `CAPITAL_PER_TRADE = 20000`. -/
def CAPITAL_PER_TRADE : ℚ := 20000

/-- `MIN_VOLUME_THRESHOLD = 1000000` (liquidity floor under which VWAP is
deemed unreliable and the instrument is skipped before any VWAP lookup). -/
def MIN_VOLUME_THRESHOLD : ℕ := 1000000

/-- `VWAP_CACHE_TTL = 180` seconds. -/
def VWAP_CACHE_TTL : ℚ := 180

/-- Python truthiness of an optional float, as used by
`if vwap_now and ...`: `None` and `0.0` are both falsy. -/
def truthyQ : Option ℚ → Bool
  | none => false
  | some q => q != 0

/-- One cached VWAP row: `{"timestamp": ..., "vwap_now": ..., "vwap_prev": ...}`. -/
structure VwapEntry where
  timestamp : ℚ
  vwap_now : Option ℚ
  vwap_prev : Option ℚ
deriving DecidableEq

/-- The module-level `vwap_cache` dict, keyed by instrument token. -/
abbrev VwapCache := List (ℕ × VwapEntry)

/-- Python `dict.get`: first binding of the key, if any. -/
def alookup {α β : Type} [DecidableEq α] : List (α × β) → α → Option β
  | [], _ => none
  | p :: r, k => if p.1 = k then some p.2 else alookup r k

/-- Python `dict[k] = v`: replace the binding in place if the key exists,
else append it (dicts preserve insertion order). -/
def aset {α β : Type} [DecidableEq α] : List (α × β) → α → β → List (α × β)
  | [], k, v => [(k, v)]
  | p :: r, k, v => if p.1 = k then (k, v) :: r else p :: aset r k v

/-- One minute candle as returned by `kite.historical_data`; `volume` may
be `None` (the source guards with `c['volume'] or 0`). -/
structure Candle where
  date : ℚ
  high : ℚ
  low : ℚ
  close : ℚ
  volume : Option ℕ
deriving DecidableEq

/-- Outcome of the external minute-bar fetch: an exception
(`except` branch) or a list of candles (possibly empty). -/
inductive FetchResult where
  | failure : FetchResult
  | bars : List Candle → FetchResult
deriving DecidableEq

/-- Accumulator of the candle loop in `calculate_intraday_vwap_pair`. -/
structure VwapAcc where
  total_vol : ℕ
  total_tpvol : ℚ
  prev_total_vol : ℕ
  prev_total_tpvol : ℚ
deriving DecidableEq

/-- Body of the candle loop: accumulate typical-price × volume and volume;
snapshot the running totals while the candle is at or before the cutoff. -/
def vwap_fold (cutoff : ℚ) (acc : VwapAcc) (c : Candle) : VwapAcc :=
  let tp := (c.high + c.low + c.close) / 3
  let v := c.volume.getD 0
  let total_tpvol := acc.total_tpvol + tp * (v : ℚ)
  let total_vol := acc.total_vol + v
  if c.date ≤ cutoff then ⟨total_vol, total_tpvol, total_vol, total_tpvol⟩
  else ⟨total_vol, total_tpvol, acc.prev_total_vol, acc.prev_total_tpvol⟩

/-- `(vwap_now, vwap_prev)` from a candle list: each is `None` (undefined,
never zero) when the corresponding accumulated volume is zero
(`if total_vol` / `if prev_total_vol` truthiness). -/
def vwap_pair_of_candles (candles : List Candle) (cutoff : ℚ) : Option ℚ × Option ℚ :=
  let acc := candles.foldl (vwap_fold cutoff) ⟨0, 0, 0, 0⟩
  (if acc.total_vol ≠ 0 then some (acc.total_tpvol / (acc.total_vol : ℚ)) else none,
   if acc.prev_total_vol ≠ 0 then some (acc.prev_total_tpvol / (acc.prev_total_vol : ℚ)) else none)

/-- Result of one `calculate_intraday_vwap_pair` call: the returned pair,
the cache state after the call, and how many historical-bar requests the
call performed. -/
structure VwapCallResult where
  vwap_now : Option ℚ
  vwap_prev : Option ℚ
  cache : VwapCache
  fetches : ℕ
deriving DecidableEq

/-- The cache-miss/expiry path of `calculate_intraday_vwap_pair`: one
fetch; an exception or an empty candle list caches and returns
`(None, None)`; otherwise the freshly computed pair is cached, stamped
with the current time. -/
def vwap_recompute (cache : VwapCache) (token : ℕ) (now_time lookback_minutes : ℚ)
    (fetch : FetchResult) : VwapCallResult :=
  match fetch with
  | .failure => ⟨none, none, aset cache token ⟨now_time, none, none⟩, 1⟩
  | .bars [] => ⟨none, none, aset cache token ⟨now_time, none, none⟩, 1⟩
  | .bars cs =>
    let cutoff := now_time - lookback_minutes * 60
    let p := vwap_pair_of_candles cs cutoff
    ⟨p.1, p.2, aset cache token ⟨now_time, p.1, p.2⟩, 1⟩

/-- `calculate_intraday_vwap_pair`: serve from the cache when the entry is
younger than `VWAP_CACHE_TTL` seconds, else recompute (exactly one fetch)
and overwrite the entry. -/
def calculate_intraday_vwap_pair (cache : VwapCache) (token : ℕ)
    (now_time lookback_minutes : ℚ) (fetch : FetchResult) : VwapCallResult :=
  match alookup cache token with
  | some cached =>
    if now_time - cached.timestamp < VWAP_CACHE_TTL then
      ⟨cached.vwap_now, cached.vwap_prev, cache, 0⟩
    else vwap_recompute cache token now_time lookback_minutes fetch
  | none => vwap_recompute cache token now_time lookback_minutes fetch

/-- One open position as stored in `active_trades`. -/
structure Trade where
  entry_price : ℚ
  qty : ℤ
  entry_time : ℚ
  token : ℕ
deriving DecidableEq

/-- One row of `realized_trades`. -/
structure RealizedTrade where
  symbol : String
  entry_price : ℚ
  exit_price : ℚ
  qty : ℤ
  pnl : ℚ
deriving DecidableEq

/-- One row of the batched quote fetch (`fetch_ltp_data_batched`). -/
structure QuoteRow where
  symbol : String
  open_price : ℚ
  last_price : ℚ
  volume : ℕ
  pct_change : ℚ
deriving DecidableEq

/-- The VWAP entry gate (`if vwap_now and row['last_price'] > vwap_now` and
`vwap_trend_ok = (vwap_prev is None) or (vwap_now > vwap_prev)`): note the
truthiness test on `vwap_now` but the `is None` test on `vwap_prev`. -/
def vwap_entry_ok (last_price : ℚ) (vn vp : Option ℚ) : Bool :=
  truthyQ vn && decide (vn.getD 0 < last_price) &&
    (vp.isNone || decide (vp.getD 0 < vn.getD 0))

/-- An entry candidate surviving all three filters, with its ranking
score. -/
structure Candidate where
  symbol : String
  last_price : ℚ
  score : ℚ
  token : ℕ
deriving DecidableEq

/-- The candidate filter of the main loop: momentum first
(`pct_change <= MIN_PCT_CHANGE or symbol in active_trades` skips), then
the volume floor, then the VWAP gate; survivors get
`score = 0.8 * pct_change + 0.2 * ((last_price - vwap_now)/vwap_now * 100)`. -/
def candidate_filter (active : List (String × Trade))
    (vwapOf : String → Option ℚ × Option ℚ) (tokenOf : String → ℕ)
    (rows : List QuoteRow) : List Candidate :=
  rows.filterMap (fun row =>
    if row.pct_change ≤ MIN_PCT_CHANGE then none
    else if (alookup active row.symbol).isSome then none
    else if row.volume < MIN_VOLUME_THRESHOLD then none
    else
      let v := vwapOf row.symbol
      if vwap_entry_ok row.last_price v.1 v.2 then
        some ⟨row.symbol, row.last_price,
          (8 / 10) * row.pct_change +
            (2 / 10) * ((row.last_price - (v.1).getD 0) / (v.1).getD 0 * 100),
          tokenOf row.symbol⟩
      else none)

/-- Ranking relation of `sorted(potential_trades, key=score, reverse=True)`:
Python's sort is stable and `reverse=True` preserves the original order of
tied scores, i.e. a stable sort by "score at least as large". -/
def candGe (a b : Candidate) : Prop := b.score ≤ a.score

instance : DecidableRel candGe :=
  fun a b => inferInstanceAs (Decidable (b.score ≤ a.score))

/-- Python `int(x)` truncation toward zero of a rational. -/
def qtrunc (q : ℚ) : ℤ := if 0 ≤ q then ⌊q⌋ else ⌈q⌉

/-- Admission: fill `MAX_TRADES - len(active_trades)` slots from the
ranked list, with `qty = max(1, int(CAPITAL_PER_TRADE / entry_price))`. -/
def admit_trades (active : List (String × Trade)) (now : ℚ)
    (ranked : List Candidate) : List (String × Trade) :=
  let slots := MAX_TRADES - active.length
  (ranked.take slots).foldl
    (fun acc t =>
      aset acc t.symbol ⟨t.last_price, max 1 (qtrunc (CAPITAL_PER_TRADE / t.last_price)), now, t.token⟩)
    active

/-- The entry half of one scan cycle: skipped entirely when
`len(active_trades) >= MAX_TRADES`, else filter, rank, admit. -/
def entry_phase (active : List (String × Trade)) (rows : List QuoteRow)
    (vwapOf : String → Option ℚ × Option ℚ) (tokenOf : String → ℕ)
    (now : ℚ) : List (String × Trade) :=
  if MAX_TRADES ≤ active.length then active
  else admit_trades active now
    (List.insertionSort candGe (candidate_filter active vwapOf tokenOf rows))

/-- `ltp_map.get("NSE:" + symbol, {}).get("last_price", trade['entry_price'])`:
the live price of an open position, defaulting to its entry price. -/
def effective_ltp (ltpOf : String → Option ℚ) (symbol : String) (t : Trade) : ℚ :=
  (ltpOf symbol).getD t.entry_price

/-- The exit test of the main loop:
`(ltp <= stop_price) or (vwap_now and vwap_prev and (ltp <= vwap_now and
vwap_now <= vwap_prev))` with `stop_price = entry * (1 - STOP_LOSS_PCT/100)`.
Both VWAP values are tested for Python truthiness (`None` and `0.0` falsy). -/
def exit_condition (ltp entry_price : ℚ) (vn vp : Option ℚ) : Bool :=
  decide (ltp ≤ entry_price * (1 - STOP_LOSS_PCT / 100)) ||
    (truthyQ vn && truthyQ vp &&
      decide (ltp ≤ vn.getD 0) && decide (vn.getD 0 ≤ vp.getD 0))

/-- Whether one open position meets the exit test this cycle. -/
def exit_decision (ltpOf : String → Option ℚ)
    (vwapOf : String → Option ℚ × Option ℚ) (p : String × Trade) : Bool :=
  exit_condition (effective_ltp ltpOf p.1 p.2) p.2.entry_price
    (vwapOf p.1).1 (vwapOf p.1).2

/-- The realized-trade row appended on exit:
`pnl = (ltp - entry_price) * qty`. -/
def mk_realized (ltpOf : String → Option ℚ) (p : String × Trade) : RealizedTrade :=
  ⟨p.1, p.2.entry_price, effective_ltp ltpOf p.1 p.2, p.2.qty,
    (effective_ltp ltpOf p.1 p.2 - p.2.entry_price) * (p.2.qty : ℚ)⟩

/-- The exit half of one scan cycle: every open position meeting the exit
test is removed from `active_trades` (via `to_exit` / `pop`) and its
realized trade is appended, in scan order; the rest are held. -/
def exit_phase (active : List (String × Trade)) (ltpOf : String → Option ℚ)
    (vwapOf : String → Option ℚ × Option ℚ) :
    List (String × Trade) × List RealizedTrade :=
  (active.filter (fun p => !(exit_decision ltpOf vwapOf p)),
   (active.filter (exit_decision ltpOf vwapOf)).map (mk_realized ltpOf))

/-- One full scan cycle: entries, then exit evaluation over the updated
open set. -/
def scan_cycle (active : List (String × Trade)) (rows : List QuoteRow)
    (vwapOf : String → Option ℚ × Option ℚ) (tokenOf : String → ℕ)
    (ltpOf : String → Option ℚ) (now : ℚ) :
    List (String × Trade) × List RealizedTrade :=
  exit_phase (entry_phase active rows vwapOf tokenOf now) ltpOf vwapOf

/-! ### Persistence Store (`save_trade_data` and the resume blocks)

Field values are modelled at the Python runtime-type level, because the
round-trip behaviour depends on them: `float(trade['last_price'])` and
`int(qty)` store native floats/ints, while `get_token` returns a numpy
`int64` scalar (`instruments_df['instrument_token'].values[0]`), which is
NOT a Python `int`.  `json.dump(..., default=str)` therefore serializes
the token through `str`.  Floats are modelled as exact rationals; Python's
`repr`-based float serialization in `json` and `pandas.to_csv` is exact
(round-trips the bit pattern), so serialization is modelled as injective
on numeric values. -/

/-- A Python scalar as stored in a trade record. -/
inductive PyVal where
  | pint (n : ℤ)
  | pfloat (q : ℚ)
  | pstr (s : String)
  | npint (n : ℤ)
deriving DecidableEq

/-- A JSON scalar. -/
inductive JVal where
  | jint (n : ℤ)
  | jfloat (q : ℚ)
  | jstr (s : String)
deriving DecidableEq

/-- `json.dump(..., default=str)`: native ints/floats/strings serialize as
themselves; a numpy `int64` is not JSON-serializable, so `default=str`
turns it into its decimal string. -/
def py_to_json : PyVal → JVal
  | .pint n => .jint n
  | .pfloat q => .jfloat q
  | .pstr s => .jstr s
  | .npint n => .jstr (toString n)

/-- `json.load`: JSON numbers come back as native ints/floats, strings as
strings. -/
def json_to_py : JVal → PyVal
  | .jint n => .pint n
  | .jfloat q => .pfloat q
  | .jstr s => .pstr s

/-- The JSON round trip of one scalar field. -/
def json_round (v : PyVal) : PyVal := json_to_py (py_to_json v)

/-- One open-position record as held in `active_trades`
(`{'entry_price': float, 'qty': int, 'entry_time': str, 'token': ...}`). -/
structure PyPos where
  entry_price : PyVal
  qty : PyVal
  entry_time : PyVal
  token : PyVal
deriving DecidableEq

/-- The JSON image of one open-position record. -/
structure JsonPos where
  entry_price : JVal
  qty : JVal
  entry_time : JVal
  token : JVal
deriving DecidableEq

/-- `save_trade_data`, JSON half: serialize every field of every position. -/
def save_active_trades (m : List (String × PyPos)) : List (String × JsonPos) :=
  m.map (fun p => (p.1,
    ⟨py_to_json p.2.entry_price, py_to_json p.2.qty,
     py_to_json p.2.entry_time, py_to_json p.2.token⟩))

/-- The resume block, JSON half: `json.load` then the identity dict
comprehension. -/
def load_active_trades (m : List (String × JsonPos)) : List (String × PyPos) :=
  m.map (fun p => (p.1,
    ⟨json_to_py p.2.entry_price, json_to_py p.2.qty,
     json_to_py p.2.entry_time, json_to_py p.2.token⟩))

/-- A CSV cell as written by `pandas.DataFrame.to_csv`: integer-typed
values (including numpy int64) render as integer literals, floats as full-
precision float literals, strings as text.  `pandas.read_csv` infers the
dtype back from the literal form, and `.to_dict(orient="records")` boxes
the scalars to native Python values. -/
inductive CsvCell where
  | cint (n : ℤ)
  | cfloat (q : ℚ)
  | cstr (s : String)
deriving DecidableEq

/-- `to_csv` on one scalar. -/
def py_to_csv : PyVal → CsvCell
  | .pint n => .cint n
  | .npint n => .cint n
  | .pfloat q => .cfloat q
  | .pstr s => .cstr s

/-- `read_csv` + `to_dict(orient="records")` on one cell. -/
def csv_to_py : CsvCell → PyVal
  | .cint n => .pint n
  | .cfloat q => .pfloat q
  | .cstr s => .pstr s

/-- The CSV round trip of one scalar field. -/
def csv_round (v : PyVal) : PyVal := csv_to_py (py_to_csv v)

/-- One realized-trade record as held in `realized_trades`. -/
structure PyRealized where
  symbol : PyVal
  entry_price : PyVal
  exit_price : PyVal
  qty : PyVal
  pnl : PyVal
deriving DecidableEq

/-- `save_trade_data` + resume, CSV half, for one realized-trade row. -/
def csv_round_realized (r : PyRealized) : PyRealized :=
  ⟨csv_round r.symbol, csv_round r.entry_price, csv_round r.exit_price,
   csv_round r.qty, csv_round r.pnl⟩

/-- Whether a scalar is a numpy int64 (the only constructor the JSON round
trip does not fix). -/
def PyVal.isNp : PyVal → Bool
  | .npint _ => true
  | _ => false

/-- State of a persisted file at startup. -/
inductive FileState (α : Type) where
  | absent : FileState α
  | corrupt : FileState α
  | good : α → FileState α
deriving DecidableEq

/-- Outcome of a resume block: the state the process continues with plus
whether a "Could not resume/load" warning was printed, or a fatal error.
(The source's resume blocks wrap the read in `try/except` and keep the
empty initial value on any exception, so they can never produce the
`fatal` outcome; it is included so that the claimed fatal behaviour is
statable.) -/
inductive LoadOutcome (α : Type) where
  | ok : α → Bool → LoadOutcome α
  | fatal : String → LoadOutcome α
deriving DecidableEq

/-- The resume blocks (`Resume From JSON` / `Resume Realized`): a missing
file keeps the empty initial value silently; an unreadable/corrupt file
prints a warning and keeps the empty initial value; a readable file is
loaded.  No branch raises. -/
def resume_persisted {α : Type} (empty : α) : FileState α → LoadOutcome α
  | .absent => .ok empty false
  | .corrupt => .ok empty true
  | .good a => .ok a false

/-- Whether a load outcome is the fatal one. -/
def LoadOutcome.isFatal {α : Type} : LoadOutcome α → Bool
  | .fatal _ => true
  | .ok _ _ => false

/-! ### Helper lemmas -/

theorem filter_not_nan_map_fin (qs : List ℚ) :
    (qs.map PFloat.fin).filter (fun x => !x.isNan) = qs.map PFloat.fin := by
  induction qs with
  | nil => rfl
  | cons q r ih => simp [List.filter, PFloat.isNan, ih]

theorem foldl_padd_fin (qs : List ℚ) : ∀ a : ℚ,
    (qs.map PFloat.fin).foldl padd (.fin a) = .fin (a + qs.sum) := by
  induction qs with
  | nil => intro a; simp
  | cons q r ih => intro a; simp [padd, ih, add_assoc]

theorem psum_map_fin (qs : List ℚ) : psum (qs.map PFloat.fin) = .fin qs.sum := by
  unfold psum
  rw [filter_not_nan_map_fin, foldl_padd_fin]
  simp

theorem sum_map_div (qs : List ℚ) (S : ℚ) :
    (qs.map (fun q => q / S)).sum = qs.sum / S := by
  induction qs with
  | nil => simp
  | cons q r ih => simp [ih, add_div]

theorem map_pdiv_fin (qs : List ℚ) {S : ℚ} (hS : S ≠ 0) :
    (qs.map PFloat.fin).map (fun v => pdiv v (.fin S)) = qs.map (fun q => .fin (q / S)) := by
  induction qs with
  | nil => rfl
  | cons q r ih => simp [pdiv, hS, ih]

theorem mem_select_top_mem_dropna {row : ScoreRow} {n : ℕ} {p : String × PFloat}
    (hp : p ∈ select_top row n) : p ∈ dropna row := by
  have h1 : p ∈ sort_values_desc (dropna row) := List.mem_of_mem_take hp
  unfold sort_values_desc at h1
  rw [List.mem_reverse, List.mem_insertionSort, List.mem_reverse] at h1
  exact h1

theorem mem_select_top_not_nan {row : ScoreRow} {n : ℕ} {p : String × PFloat}
    (hp : p ∈ select_top row n) : p.2.isNan = false := by
  have h2 := List.mem_filter.mp (mem_select_top_mem_dropna hp)
  simpa using h2.2

theorem sort_values_desc_sorted (l : ScoreRow) :
    (sort_values_desc l).Pairwise (fun a b => rowLe b a) := by
  unfold sort_values_desc
  rw [List.pairwise_reverse]
  exact List.sorted_insertionSort rowLe l.reverse

theorem pinf_mem_select_top {row : ScoreRow} {x : String × PFloat} {n : ℕ}
    (hx : x ∈ row) (hpx : x.2 = .pinf) (hn : 0 < n) :
    ∃ y ∈ select_top row n, y.2 = .pinf := by
  have hxd : x ∈ dropna row := List.mem_filter.mpr ⟨hx, by rw [hpx]; rfl⟩
  have hxs : x ∈ sort_values_desc (dropna row) := by
    unfold sort_values_desc
    rw [List.mem_reverse, List.mem_insertionSort, List.mem_reverse]
    exact hxd
  obtain ⟨h, t, hht⟩ : ∃ h t, sort_values_desc (dropna row) = h :: t := by
    cases hs : sort_values_desc (dropna row) with
    | nil => rw [hs] at hxs; cases hxs
    | cons h t => exact ⟨h, t, rfl⟩
  have hsorted := sort_values_desc_sorted (dropna row)
  rw [hht] at hsorted hxs
  have hhd : h ∈ dropna row := by
    have hmem : h ∈ sort_values_desc (dropna row) := by
      rw [hht]; exact List.mem_cons_self h t
    unfold sort_values_desc at hmem
    rw [List.mem_reverse, List.mem_insertionSort, List.mem_reverse] at hmem
    exact hmem
  have hh_notnan : h.2.isNan = false := by
    simpa using (List.mem_filter.mp hhd).2
  have hhp : h.2 = .pinf := by
    rcases List.mem_cons.mp hxs with hxh | hxt
    · rw [← hxh]; exact hpx
    · have hrel := (List.pairwise_cons.mp hsorted).1 x hxt
      unfold rowLe at hrel
      rw [hpx] at hrel
      cases hh2 : h.2 with
      | nan => rw [hh2] at hh_notnan; simp [PFloat.isNan] at hh_notnan
      | pinf => rfl
      | ninf => rw [hh2] at hrel; simp [sortLe] at hrel
      | fin a => rw [hh2] at hrel; simp [sortLe] at hrel
  refine ⟨h, ?_, hhp⟩
  unfold select_top
  rw [hht]
  cases n with
  | zero => exact absurd hn (lt_irrefl 0)
  | succ m => simp [List.take_succ_cons]

theorem step_invested_shape (daily : DailyFrame) (top_n : ℕ) (thresh : ℚ)
    (sd : ℤ) (row : ScoreRow)
    (hinv : pltB (pmean ((select_top row top_n).map Prod.snd)) (.fin thresh) = false) :
    (simulate_backtest_step daily top_n thresh sd row).wts =
      some (mk_weights (select_top row top_n)) ∧
    (simulate_backtest_step daily top_n thresh sd row).cash = false ∧
    (simulate_backtest_step daily top_n thresh sd row).date = sd + 3 := by
  simp only [simulate_backtest_step, hinv, Bool.false_eq_true, if_false]
  refine ⟨?_, ?_, ?_⟩ <;> repeat' first | rfl | split

/-! ### Claim theorems: Signal Engine / Backtest Simulator -/

/-- C1 counterexample.  The claim says that when the realization date
(signal date + 3 days) is absent from the daily index the step is skipped
with no record appended.  In the source (`main.py` and
`send_weekly_momentum_signal.py`) this path executes
`returns.append(0.0); cash_flags.append(False); continue` after the weight
vector and date were already appended, so a full record IS appended.
Concretely: one signal week at date 10 whose realization date 13 is not in
the daily index (the only daily row is date 0) produces an output of
length 1 — a record with return `0.0`, cash flag `False` and the weight
vector — where the claim requires an empty output. -/
theorem C1_counterexample :
    simulate_backtest ⟨["A"], [(0, [.fin 5])]⟩ [(10, [("A", .fin 10)])] 0 1 0 =
      [⟨13, .fin 0, false, some [("A", .fin 1)]⟩] ∧
    lookupRow ⟨["A"], [(0, [.fin 5])]⟩ 13 = none := by
  constructor <;> decide

/-- C1 (amended): for every week index from the lookback to the last week,
if the week is invested (average selected score not below the threshold)
and the realization date is missing from the daily index, or an
entry-price / 5-rows-forward lookup fails, the step is NOT skipped: a
record with return `0.0` and cash flag `False` is appended, keeping the
weight vector recorded before the lookups; the backtest always emits
exactly one record per week index from `lookback` to `len(score) - 1`. -/
theorem C1_zero_return_recorded :
    (∀ (daily : DailyFrame) (top_n : ℕ) (thresh : ℚ) (sd : ℤ) (row : ScoreRow),
      pltB (pmean ((select_top row top_n).map Prod.snd)) (.fin thresh) = false →
      (lookupRow daily (sd + 3) = none ∨
        (∃ r, lookupRow daily (sd + 3) = some r ∧
          (rowPrices daily r ((mk_weights (select_top row top_n)).map Prod.fst) = none ∨
           daily.rows.length ≤ r + 5 ∨
           rowPrices daily (r + 5) ((mk_weights (select_top row top_n)).map Prod.fst) = none))) →
      simulate_backtest_step daily top_n thresh sd row =
        ⟨sd + 3, .fin 0, false, some (mk_weights (select_top row top_n))⟩) ∧
    (∀ (daily : DailyFrame) (score : List (ℤ × ScoreRow)) (lookback top_n : ℕ) (thresh : ℚ),
      (simulate_backtest daily score lookback top_n thresh).length = score.length - lookback) := by
  constructor
  · intro daily top_n thresh sd row hinv hfail
    simp only [simulate_backtest_step, hinv, Bool.false_eq_true, if_false]
    rcases hfail with hnone | ⟨r, hr, hsub⟩
    · simp only [hnone]
    · simp only [hr]
      rcases hsub with h1 | h2 | h3
      · simp only [h1]
      · cases hmp : rowPrices daily r ((mk_weights (select_top row top_n)).map Prod.fst) with
        | none => simp only [hmp]
        | some mp =>
          simp only [hmp]
          rw [if_pos h2]
      · cases hmp : rowPrices daily r ((mk_weights (select_top row top_n)).map Prod.fst) with
        | none => simp only [hmp]
        | some mp =>
          simp only [hmp]
          by_cases hlen : daily.rows.length ≤ r + 5
          · rw [if_pos hlen]
          · rw [if_neg hlen]
            simp only [h3]
  · intro daily score lookback top_n thresh
    simp [simulate_backtest]

/-- C1 witness: a concrete invested week whose realization date is absent
from the daily index; the theorem yields the appended zero-return record. -/
theorem C1_witness :
    simulate_backtest_step ⟨["B"], [(0, [.fin 7])]⟩ 1 0 20 [("B", .fin 9)] =
      ⟨23, .fin 0, false, some [("B", .fin 1)]⟩ :=
  C1_zero_return_recorded.1 ⟨["B"], [(0, [.fin 7])]⟩ 1 0 20 [("B", .fin 9)]
    (by decide) (Or.inl (by decide))

/-- C2 counterexample.  The claim asserts every emitted weight lies in
[0, 1] and the weights sum to 1 within 1e-9.  Both parts fail.  With
score row `{A: 50, B: -1}`, `top_n = 2` and the source's cash threshold
`4.5`, the average selected score is `24.5 ≥ 4.5`, so the week is
invested and the emitted weights are `A: 50/49, B: -1/49` — `50/49 > 1`
and `-1/49 < 0` (that selection still sums to 1).  And with score row
`{A: +inf, B: 1}` (an infinite score is reachable: zero volatility with
nonzero momentum, see C3) the mean is `+inf`, so `avg < thresh` is false
and the week is invested, but `top.sum() = inf` makes the weights
`{A: inf/inf = NaN, B: 1/inf = 0}`, whose (skipna) sum is `0.0`, not 1. -/
theorem C2_counterexample :
    (simulate_backtest_step ⟨[], []⟩ 2 (9/2) 0 [("A", .fin 50), ("B", .fin (-1))]).wts =
      some [("A", .fin (50/49)), ("B", .fin (-(1/49)))] ∧
    (simulate_backtest_step ⟨[], []⟩ 2 (9/2) 0 [("A", .fin 50), ("B", .fin (-1))]).cash = false ∧
    pmean ((select_top [("A", .fin 50), ("B", .fin (-1))] 2).map Prod.snd) = .fin (49/2) ∧
    ((9:ℚ)/2 ≤ 49/2) ∧
    ¬ ((50:ℚ)/49 ≤ 1) ∧ ¬ ((0:ℚ) ≤ -(1/49)) ∧
    pmean ((select_top [("A", PFloat.pinf), ("B", PFloat.fin 1)] 2).map Prod.snd) = .pinf ∧
    pltB (pmean ((select_top [("A", PFloat.pinf), ("B", PFloat.fin 1)] 2).map Prod.snd))
      (.fin (9/2)) = false ∧
    (simulate_backtest_step ⟨[], []⟩ 2 (9/2) 0 [("A", PFloat.pinf), ("B", PFloat.fin 1)]).wts =
      some (mk_weights (select_top [("A", PFloat.pinf), ("B", PFloat.fin 1)] 2)) ∧
    (mk_weights (select_top [("A", PFloat.pinf), ("B", PFloat.fin 1)] 2)).map Prod.snd =
      [PFloat.nan, PFloat.fin 0] ∧
    psum ((mk_weights (select_top [("A", PFloat.pinf), ("B", PFloat.fin 1)] 2)).map Prod.snd) =
      .fin 0 := by
  refine ⟨?_, ?_, ?_, ?_, ?_, ?_, ?_, ?_, ?_, ?_, ?_⟩ <;> decide

/-- C2 (amended): for every invested backtest week (average selected score
not below the threshold) whose selected scores are all finite, with
nonzero sum, the emitted weight vector assigns each selected instrument
`score / sum(selected scores)`; those weights sum to exactly 1 (hence
within 1e-9); and every weight lies in [0, 1] provided the selected
scores are additionally all nonnegative.  Both qualifiers are forced by
the code: with mixed-sign selected scores a weight leaves [0, 1], and
when an infinite score is selected (reachable per C3) the division gives
`inf/inf = NaN` and `finite/inf = 0` weights, whose skipna sum on a
concrete invested week is `0.0`, not 1 — the second half proves that
failure mode. -/
theorem C2_weights_normalized :
    (∀ (daily : DailyFrame) (top_n : ℕ) (thresh : ℚ) (sd : ℤ) (row : ScoreRow) (qs : List ℚ),
      (select_top row top_n).map Prod.snd = qs.map PFloat.fin →
      qs.sum ≠ 0 →
      pltB (pmean ((select_top row top_n).map Prod.snd)) (.fin thresh) = false →
      (simulate_backtest_step daily top_n thresh sd row).wts =
        some (mk_weights (select_top row top_n)) ∧
      (mk_weights (select_top row top_n)).map Prod.snd =
        qs.map (fun q => .fin (q / qs.sum)) ∧
      psum ((mk_weights (select_top row top_n)).map Prod.snd) = .fin 1 ∧
      ((∀ q ∈ qs, 0 ≤ q) → ∀ q ∈ qs, 0 ≤ q / qs.sum ∧ q / qs.sum ≤ 1)) ∧
    (pltB (pmean ((select_top [("A", PFloat.pinf), ("B", PFloat.fin 1)] 2).map Prod.snd))
        (.fin (9/2)) = false ∧
      psum ((mk_weights (select_top [("A", PFloat.pinf), ("B", PFloat.fin 1)] 2)).map Prod.snd) =
        .fin 0) := by
  refine ⟨?_, by decide, by decide⟩
  intro daily top_n thresh sd row qs hsel hS hinv
  have hmap : (mk_weights (select_top row top_n)).map Prod.snd =
      qs.map (fun q => .fin (q / qs.sum)) := by
    unfold mk_weights
    rw [hsel, psum_map_fin]
    rw [List.map_map]
    have : (Prod.snd ∘ fun p : String × PFloat => (p.1, pdiv p.2 (.fin qs.sum))) =
        (fun v => pdiv v (.fin qs.sum)) ∘ Prod.snd := rfl
    rw [this, ← List.map_map, hsel, map_pdiv_fin qs hS]
  refine ⟨(step_invested_shape daily top_n thresh sd row hinv).1, hmap, ?_, ?_⟩
  · rw [hmap]
    have : (qs.map (fun q => PFloat.fin (q / qs.sum))) =
        (qs.map (fun q => q / qs.sum)).map PFloat.fin := by
      rw [List.map_map]; rfl
    rw [this, psum_map_fin, sum_map_div, div_self hS]
  · intro hpos q hq
    have hSpos : 0 < qs.sum :=
      lt_of_le_of_ne (List.sum_nonneg hpos) (Ne.symm hS)
    refine ⟨div_nonneg (hpos q hq) (le_of_lt hSpos), ?_⟩
    rw [div_le_one hSpos]
    exact List.single_le_sum hpos q hq

/-- C2 witness: score row `{A: 3, B: 1}`, `top_n = 2`, threshold 1: the
hypotheses hold and the weights sum to exactly 1. -/
theorem C2_witness :
    (select_top [("A", PFloat.fin 3), ("B", PFloat.fin 1)] 2).map Prod.snd =
      [(3:ℚ), 1].map PFloat.fin ∧
    psum ((mk_weights (select_top [("A", PFloat.fin 3), ("B", PFloat.fin 1)] 2)).map Prod.snd) =
      .fin 1 :=
  ⟨by decide,
   (C2_weights_normalized.1 ⟨[], []⟩ 2 1 0 [("A", PFloat.fin 3), ("B", PFloat.fin 1)] [3, 1]
     (by decide) (by norm_num) (by decide)).2.2.1⟩

/-- C3 counterexample.  The claim says an instrument with zero rolling
volatility has no score and is never ranked.  In the source,
`score = momentum / volatility` is a numpy float division, so zero
volatility with nonzero momentum gives an infinite score which `dropna`
does NOT remove (it drops only NaN): with instrument A at momentum 3 and
volatility 0 (e.g. a price series growing at a constant weekly rate) and
instrument B at a finite score 2, the top-1 selection ranks A — first. -/
theorem C3_counterexample :
    select_top [("A", score_of (.fin 3) (.fin 0)), ("B", score_of (.fin 2) (.fin 1))] 1 =
      [("A", .pinf)] := by
  decide

/-- C3 (amended): an instrument whose momentum or volatility is undefined
(NaN), or whose volatility AND momentum are both zero, has a NaN score;
no entry of the top-N selection is NaN (so such instruments are excluded
from ranking, never scored as zero).  But zero volatility with nonzero
momentum yields a signed INFINITE score, not an undefined one, and an
instrument with score `+inf` is always ranked (it is selected whenever
`top_n ≥ 1`). -/
theorem C3_zero_vol_scores :
    (∀ v, score_of .nan v = .nan) ∧
    (∀ m, score_of m .nan = .nan) ∧
    score_of (.fin 0) (.fin 0) = .nan ∧
    (∀ q : ℚ, q ≠ 0 → score_of (.fin q) (.fin 0) = if 0 < q then .pinf else .ninf) ∧
    (∀ (row : ScoreRow) (n : ℕ) (p : String × PFloat),
      p ∈ select_top row n → p.2.isNan = false) ∧
    (∀ (row : ScoreRow) (x : String × PFloat) (n : ℕ),
      x ∈ row → x.2 = .pinf → 0 < n → ∃ y ∈ select_top row n, y.2 = .pinf) := by
  refine ⟨?_, ?_, ?_, ?_, ?_, ?_⟩
  · intro v; cases v <;> rfl
  · intro m; cases m <;> rfl
  · decide
  · intro q hq
    simp [score_of, pdiv, hq]
  · intro row n p hp
    exact mem_select_top_not_nan hp
  · intro row x n hx hpx hn
    exact pinf_mem_select_top hx hpx hn

/-- C3 witness: a nonzero momentum over zero volatility scores `+inf`, and
a `+inf`-scored instrument is selected. -/
theorem C3_witness :
    score_of (.fin 2) (.fin 0) = .pinf ∧
    ∃ y ∈ select_top [("Z", PFloat.pinf)] 1, y.2 = .pinf :=
  ⟨by rw [C3_zero_vol_scores.2.2.2.1 2 (by norm_num)]; norm_num,
   C3_zero_vol_scores.2.2.2.2.2 [("Z", PFloat.pinf)] ("Z", PFloat.pinf) 1
     (by decide) rfl (by decide)⟩

/-! ### Claim theorems: Trade Lifecycle Manager and Persistence Store

(No theorem is stated for the tie-breaking order of the weekly top-N
selection: the source sorts with the default `kind='quicksort'`, whose
order among equal scores is implementation-defined for realistic row
sizes, so neither the spec's first-seen tie order nor any other definite
tie order is a property of the program that this embedding can settle.) -/

theorem aset_length_le {α β : Type} [DecidableEq α] (l : List (α × β)) (k : α) (v : β) :
    (aset l k v).length ≤ l.length + 1 := by
  induction l with
  | nil => simp [aset]
  | cons p r ih =>
    simp only [aset]
    by_cases h : p.1 = k
    · simp [h]
    · simp only [h, if_false, List.length_cons]
      omega

theorem foldl_aset_length {α β γ : Type} [DecidableEq α] (key : γ → α) (val : γ → β) :
    ∀ (ts : List γ) (acc : List (α × β)),
      (ts.foldl (fun a t => aset a (key t) (val t)) acc).length ≤ acc.length + ts.length := by
  intro ts
  induction ts with
  | nil => intro acc; simp
  | cons t r ih =>
    intro acc
    simp only [List.foldl_cons, List.length_cons]
    have h1 := ih (aset acc (key t) (val t))
    have h2 := aset_length_le acc (key t) (val t)
    omega

theorem alookup_aset_self {α β : Type} [DecidableEq α] (l : List (α × β)) (k : α) (v : β) :
    alookup (aset l k v) k = some v := by
  induction l with
  | nil => simp [aset, alookup]
  | cons p r ih =>
    simp only [aset]
    by_cases h : p.1 = k
    · rw [if_pos h]
      simp [alookup]
    · rw [if_neg h]
      simp only [alookup, h, if_false]
      exact ih

theorem entry_phase_length_le {active : List (String × Trade)} (rows : List QuoteRow)
    (vwapOf : String → Option ℚ × Option ℚ) (tokenOf : String → ℕ) (now : ℚ)
    (hlen : active.length ≤ MAX_TRADES) :
    (entry_phase active rows vwapOf tokenOf now).length ≤ MAX_TRADES := by
  unfold entry_phase
  by_cases hfull : MAX_TRADES ≤ active.length
  · rw [if_pos hfull]
    exact hlen
  · rw [if_neg hfull]
    simp only [admit_trades]
    have hf := foldl_aset_length (fun t : Candidate => t.symbol)
      (fun t : Candidate =>
        (⟨t.last_price, max 1 (qtrunc (CAPITAL_PER_TRADE / t.last_price)), now, t.token⟩ : Trade))
      ((List.insertionSort candGe
        (candidate_filter active vwapOf tokenOf rows)).take (MAX_TRADES - active.length))
      active
    have htake : ((List.insertionSort candGe
        (candidate_filter active vwapOf tokenOf rows)).take (MAX_TRADES - active.length)).length ≤
        MAX_TRADES - active.length := by
      rw [List.length_take]
      omega
    omega

theorem candidate_filter_not_open {active : List (String × Trade)}
    {vwapOf : String → Option ℚ × Option ℚ} {tokenOf : String → ℕ}
    {rows : List QuoteRow} {c : Candidate}
    (hc : c ∈ candidate_filter active vwapOf tokenOf rows) :
    alookup active c.symbol = none := by
  unfold candidate_filter at hc
  rw [List.mem_filterMap] at hc
  obtain ⟨row, hrow, hf⟩ := hc
  by_cases h1 : row.pct_change ≤ MIN_PCT_CHANGE
  · rw [if_pos h1] at hf
    cases hf
  · rw [if_neg h1] at hf
    by_cases h2 : (alookup active row.symbol).isSome
    · rw [if_pos h2] at hf
      cases hf
    · rw [if_neg h2] at hf
      by_cases h3 : row.volume < MIN_VOLUME_THRESHOLD
      · rw [if_pos h3] at hf
        cases hf
      · rw [if_neg h3] at hf
        simp only at hf
        by_cases h4 : vwap_entry_ok row.last_price (vwapOf row.symbol).1 (vwapOf row.symbol).2 = true
        · rw [if_pos h4] at hf
          have hsym : c.symbol = row.symbol := by
            cases hf
            rfl
          rw [hsym]
          exact Option.not_isSome_iff_eq_none.mp h2
        · rw [if_neg h4] at hf
          cases hf

/-- C4 (confirmed): starting from any open-position set with at most
`MAX_TRADES` entries, one full scan cycle (entry phase, then exit phase)
leaves at most `MAX_TRADES` open positions — the entry phase is skipped
when the set is full and otherwise fills at most
`MAX_TRADES - len(active_trades)` slots, while exits only remove — and an
instrument already open is excluded from candidacy: every candidate's
symbol is absent from the open-position dict. -/
theorem C4_max_trades :
    ∀ (active : List (String × Trade)) (rows : List QuoteRow)
      (vwapOf : String → Option ℚ × Option ℚ) (tokenOf : String → ℕ)
      (ltpOf : String → Option ℚ) (now : ℚ),
      active.length ≤ MAX_TRADES →
      (scan_cycle active rows vwapOf tokenOf ltpOf now).1.length ≤ MAX_TRADES ∧
      ∀ c ∈ candidate_filter active vwapOf tokenOf rows, alookup active c.symbol = none := by
  intro active rows vwapOf tokenOf ltpOf now hlen
  constructor
  · have hE := entry_phase_length_le rows vwapOf tokenOf now hlen
    calc (scan_cycle active rows vwapOf tokenOf ltpOf now).1.length
        ≤ (entry_phase active rows vwapOf tokenOf now).length :=
          List.length_filter_le _ _
      _ ≤ MAX_TRADES := hE
  · intro c hc
    exact candidate_filter_not_open hc

/-- C4 witness: one open position out of five allowed; the invariant holds
after a cycle over an empty quote batch. -/
theorem C4_witness :
    (scan_cycle [("X", ⟨100, 1, 0, 7⟩)] [] (fun _ => (none, none)) (fun _ => 0)
        (fun _ => none) 0).1.length ≤ MAX_TRADES ∧
    ∀ c ∈ candidate_filter [("X", (⟨100, 1, 0, 7⟩ : Trade))] (fun _ => (none, none))
        (fun _ => 0) [], alookup [("X", (⟨100, 1, 0, 7⟩ : Trade))] c.symbol = none :=
  C4_max_trades [("X", ⟨100, 1, 0, 7⟩)] [] (fun _ => (none, none)) (fun _ => 0)
    (fun _ => none) 0 (by decide)

/-- C5 (confirmed): a `calculate_intraday_vwap_pair` call that finds a
cache entry younger than the TTL returns the cached pair unchanged, leaves
the cache untouched and performs no bar fetch; a call that finds an entry
at least TTL old performs exactly one fetch and replaces the entry with
the freshly computed pair stamped at the call time (for a nonempty candle
list the pair is the VWAP computation over those candles with cutoff
`now - lookback minutes`). -/
theorem C5_vwap_cache_ttl :
    ∀ (cache : VwapCache) (token : ℕ) (now lb : ℚ) (fetch : FetchResult) (e : VwapEntry),
      alookup cache token = some e →
      (now - e.timestamp < VWAP_CACHE_TTL →
        calculate_intraday_vwap_pair cache token now lb fetch =
          ⟨e.vwap_now, e.vwap_prev, cache, 0⟩) ∧
      (¬ (now - e.timestamp < VWAP_CACHE_TTL) →
        (calculate_intraday_vwap_pair cache token now lb fetch).fetches = 1 ∧
        (calculate_intraday_vwap_pair cache token now lb fetch).cache =
          aset cache token ⟨now,
            (calculate_intraday_vwap_pair cache token now lb fetch).vwap_now,
            (calculate_intraday_vwap_pair cache token now lb fetch).vwap_prev⟩ ∧
        ∀ c cs, fetch = .bars (c :: cs) →
          ((calculate_intraday_vwap_pair cache token now lb fetch).vwap_now,
           (calculate_intraday_vwap_pair cache token now lb fetch).vwap_prev) =
            vwap_pair_of_candles (c :: cs) (now - lb * 60)) := by
  intro cache token now lb fetch e he
  constructor
  · intro hfresh
    simp only [calculate_intraday_vwap_pair, he, hfresh, if_true]
  · intro hold
    simp only [calculate_intraday_vwap_pair, he, hold, if_false]
    cases fetch with
    | failure => exact ⟨rfl, rfl, by intro c cs h; cases h⟩
    | bars cs =>
      cases cs with
      | nil => exact ⟨rfl, rfl, by intro c cs h; cases h⟩
      | cons c rest =>
        refine ⟨rfl, rfl, ?_⟩
        intro c2 cs2 h
        cases h
        rfl

/-- C5 witness: a cached pair served untouched 100 s after it was stamped,
and a recompute (exactly one fetch, entry restamped) 200 s after. -/
theorem C5_witness :
    calculate_intraday_vwap_pair [(7, ⟨0, some 5, some 4⟩)] 7 100 15 .failure =
      ⟨some 5, some 4, [(7, ⟨0, some 5, some 4⟩)], 0⟩ ∧
    (calculate_intraday_vwap_pair [(7, ⟨0, some 5, some 4⟩)] 7 200 15 .failure).fetches = 1 :=
  ⟨(C5_vwap_cache_ttl [(7, ⟨0, some 5, some 4⟩)] 7 100 15 .failure ⟨0, some 5, some 4⟩
      (by decide)).1 (by norm_num [VWAP_CACHE_TTL]),
   ((C5_vwap_cache_ttl [(7, ⟨0, some 5, some 4⟩)] 7 200 15 .failure ⟨0, some 5, some 4⟩
      (by decide)).2 (by norm_num [VWAP_CACHE_TTL])).1⟩

/-- C6 counterexample.  The claim says the position is exited whenever
`vwap_now` and `vwap_prev` are both DEFINED and `price ≤ vwap_now ≤
vwap_prev` (or the stop triggers).  The source tests Python truthiness
(`vwap_now and vwap_prev and ...`), under which a defined VWAP of `0.0` is
falsy.  With entry price −10 (so the stop sits at −9.9 and does not
trigger at price 0), live price 0 and `(vwap_now, vwap_prev) = (0.0, 0.0)`
— both defined, and `0 ≤ 0 ≤ 0` holds — the position is NOT exited: it
stays open and no realized trade is appended. -/
theorem C6_counterexample :
    exit_phase [("X", ⟨-10, 1, 0, 7⟩)] (fun _ => some 0) (fun _ => (some 0, some 0)) =
      ([("X", ⟨-10, 1, 0, 7⟩)], []) ∧
    (some (0:ℚ)).isSome = true ∧
    ((0:ℚ) ≤ 0 ∧ (0:ℚ) ≤ 0) ∧
    ¬ ((0:ℚ) ≤ -10 * (1 - STOP_LOSS_PCT / 100)) := by
  refine ⟨by decide, rfl, ⟨le_refl 0, le_refl 0⟩, by decide⟩

/-- C6 (amended): an open position evaluated with live price `price` is
exited — removed from the open set with a realized trade of
`pnl = (price − entry) × qty` appended — if and only if
`price ≤ entry × (1 − stop_loss_pct/100)` OR `vwap_now` and `vwap_prev`
are both defined AND NONZERO (Python truthiness, not mere definedness)
with `price ≤ vwap_now ≤ vwap_prev`; in particular the stop-loss branch
triggers regardless of VWAP state. -/
theorem C6_exit_iff :
    ∀ (active : List (String × Trade)) (ltpOf : String → Option ℚ)
      (vwapOf : String → Option ℚ × Option ℚ) (s : String) (t : Trade) (price : ℚ),
      (s, t) ∈ active →
      ltpOf s = some price →
      ((((s, t) ∉ (exit_phase active ltpOf vwapOf).1) ∧
        mk_realized ltpOf (s, t) ∈ (exit_phase active ltpOf vwapOf).2) ↔
        exit_condition price t.entry_price (vwapOf s).1 (vwapOf s).2 = true) ∧
      mk_realized ltpOf (s, t) =
        ⟨s, t.entry_price, price, t.qty, (price - t.entry_price) * (t.qty : ℚ)⟩ ∧
      (price ≤ t.entry_price * (1 - STOP_LOSS_PCT / 100) →
        exit_condition price t.entry_price (vwapOf s).1 (vwapOf s).2 = true) := by
  intro active ltpOf vwapOf s t price hmem hltp
  have heff : effective_ltp ltpOf s t = price := by
    simp [effective_ltp, hltp]
  have hE : exit_decision ltpOf vwapOf (s, t) =
      exit_condition price t.entry_price (vwapOf s).1 (vwapOf s).2 := by
    simp [exit_decision, heff]
  refine ⟨?_, ?_, ?_⟩
  · constructor
    · rintro ⟨hrm, _⟩
      by_contra hne
      have hEf : exit_decision ltpOf vwapOf (s, t) = false := by
        rw [hE]
        exact Bool.not_eq_true _ ▸ (Bool.of_not_eq_true hne)
      exact hrm (List.mem_filter.mpr ⟨hmem, by simp [exit_phase, hEf]⟩)
    · intro hEt
      constructor
      · intro hin
        have h2 := (List.mem_filter.mp hin).2
        rw [Bool.not_eq_eq_eq_not] at h2
        simp only [Bool.not_true] at h2
        rw [hE, hEt] at h2
        cases h2
      · exact List.mem_map_of_mem _ (List.mem_filter.mpr ⟨hmem, by rw [hE]; exact hEt⟩)
  · simp [mk_realized, heff]
  · intro h
    simp [exit_condition, h]

/-- C6 witness: entry 100, quantity 2, live price 99 hits the 1 % stop
(99 ≤ 99) with no VWAP available, so the position is removed and a
realized trade with pnl `(99 − 100) × 2` is appended. -/
theorem C6_witness :
    (("Y", (⟨100, 2, 0, 3⟩ : Trade)) ∉
      (exit_phase [("Y", ⟨100, 2, 0, 3⟩)] (fun _ => some 99) (fun _ => (none, none))).1) ∧
    mk_realized (fun _ => some 99) ("Y", ⟨100, 2, 0, 3⟩) ∈
      (exit_phase [("Y", ⟨100, 2, 0, 3⟩)] (fun _ => some 99) (fun _ => (none, none))).2 :=
  ((C6_exit_iff [("Y", ⟨100, 2, 0, 3⟩)] (fun _ => some 99) (fun _ => (none, none))
      "Y" ⟨100, 2, 0, 3⟩ 99 (by decide) rfl).1).mpr (by decide)

/-- C7 counterexample.  The claim says a corrupt persisted file is a fatal
startup error and the process never starts with empty state over a corrupt
file.  The source wraps both resume reads in `try/except`, prints a
"Could not resume/load" warning, and continues with the empty initial
value — the corrupt-file outcome is `ok` (empty state, warning printed),
never `fatal`. -/
theorem C7_counterexample :
    resume_persisted ([] : List (String × PyPos)) FileState.corrupt =
      .ok [] true ∧
    (resume_persisted ([] : List (String × PyPos)) FileState.corrupt).isFatal = false :=
  ⟨rfl, rfl⟩

/-- C7 (amended): at startup, a missing persisted file yields the empty
state without raising and without a warning (this half of the claim
holds); a corrupt or unreadable file yields the empty state too, with only
a printed warning — loading is NOT fatal, so the process does start with
empty state over a corrupt file; a readable file yields its contents. -/
theorem C7_resume_behaviour :
    (∀ (α : Type) (empty : α),
      resume_persisted empty .absent = .ok empty false) ∧
    (∀ (α : Type) (empty : α),
      resume_persisted empty .corrupt = .ok empty true ∧
      (resume_persisted empty .corrupt).isFatal = false) ∧
    (∀ (α : Type) (empty a : α),
      resume_persisted empty (.good a) = .ok a false) :=
  ⟨fun _ _ => rfl, fun _ _ => ⟨rfl, rfl⟩, fun _ _ _ => rfl⟩

theorem json_round_not_np {v : PyVal} (h : v.isNp = false) : json_round v = v := by
  cases v with
  | pint n => rfl
  | pfloat q => rfl
  | pstr s => rfl
  | npint n => simp [PyVal.isNp] at h

theorem csv_round_not_np {v : PyVal} (h : v.isNp = false) : csv_round v = v := by
  cases v with
  | pint n => rfl
  | pfloat q => rfl
  | pstr s => rfl
  | npint n => simp [PyVal.isNp] at h

/-- C8 counterexample.  The claim says the JSON/CSV round trip restores
every field equal in value and type.  The `token` field comes from
`get_token`, i.e. `instruments_df['instrument_token'].values[0]` — a numpy
`int64`, which `json.dump` cannot serialize, so `default=str` stores its
decimal string; reloading returns a `str`.  A position saved with token
`int64 738561` is reloaded with token `"738561"` — different type (and not
equal as a Python value). -/
theorem C8_counterexample :
    load_active_trades (save_active_trades
      [("RELIANCE", ⟨.pfloat 2500, .pint 8, .pstr "2025-01-06 09:30:00", .npint 738561⟩)]) =
      [("RELIANCE", ⟨.pfloat 2500, .pint 8, .pstr "2025-01-06 09:30:00", .pstr "738561"⟩)] ∧
    PyVal.npint 738561 ≠ PyVal.pstr "738561" := by
  constructor
  · rfl
  · decide

/-- C8 (amended): the JSON round trip of `save_trade_data` restores the
symbol keys and the `entry_price` (float), `qty` (int) and `entry_time`
(string) fields identically; the `token` field, a numpy `int64`, is
serialized through `str` and comes back as its decimal string instead of
an integer.  The CSV round trip of the realized-trade rows (whose fields
the loop creates as native float/int/str) restores them identically; a
numpy int in a CSV cell would come back as the equal-valued native int. -/
theorem C8_roundtrip :
    (∀ n : ℤ, json_round (.pint n) = .pint n) ∧
    (∀ q : ℚ, json_round (.pfloat q) = .pfloat q) ∧
    (∀ s : String, json_round (.pstr s) = .pstr s) ∧
    (∀ n : ℤ, json_round (.npint n) = .pstr (toString n)) ∧
    (∀ m : List (String × PyPos),
      (∀ p ∈ m, p.2.entry_price.isNp = false ∧ p.2.qty.isNp = false ∧
        p.2.entry_time.isNp = false ∧ p.2.token.isNp = false) →
      load_active_trades (save_active_trades m) = m) ∧
    (∀ n : ℤ, csv_round (.npint n) = .pint n) ∧
    (∀ r : PyRealized,
      r.symbol.isNp = false → r.entry_price.isNp = false → r.exit_price.isNp = false →
      r.qty.isNp = false → r.pnl.isNp = false →
      csv_round_realized r = r) := by
  refine ⟨fun n => rfl, fun q => rfl, fun s => rfl, fun n => rfl, ?_, fun n => rfl, ?_⟩
  · intro m
    induction m with
    | nil => intro h; rfl
    | cons p rest ih =>
      intro h
      obtain ⟨name, pos⟩ := p
      obtain ⟨e, q, et, tok⟩ := pos
      have hp := h ⟨name, e, q, et, tok⟩ (List.mem_cons_self _ _)
      have htail := ih (fun p hmem => h p (List.mem_cons_of_mem _ hmem))
      have h1 : json_to_py (py_to_json e) = e := json_round_not_np hp.1
      have h2 : json_to_py (py_to_json q) = q := json_round_not_np hp.2.1
      have h3 : json_to_py (py_to_json et) = et := json_round_not_np hp.2.2.1
      have h4 : json_to_py (py_to_json tok) = tok := json_round_not_np hp.2.2.2
      simp only [load_active_trades, save_active_trades, List.map_cons, List.map_map]
        at htail ⊢
      rw [htail, h1, h2, h3, h4]
  · intro r h1 h2 h3 h4 h5
    obtain ⟨sy, e, x, q, pl⟩ := r
    simp only [csv_round_realized]
    rw [csv_round_not_np h1, csv_round_not_np h2, csv_round_not_np h3,
      csv_round_not_np h4, csv_round_not_np h5]

/-- C8 witness: a position whose token is already a native string, and a
realized trade with native fields, round-trip identically. -/
theorem C8_witness :
    load_active_trades (save_active_trades
      [("TCS", ⟨.pfloat 3500, .pint 5, .pstr "2025-01-06", .pstr "98765"⟩)]) =
      [("TCS", ⟨.pfloat 3500, .pint 5, .pstr "2025-01-06", .pstr "98765"⟩)] ∧
    csv_round_realized ⟨.pstr "TCS", .pfloat 3500, .pfloat 3400, .pint 5, .pfloat (-500)⟩ =
      ⟨.pstr "TCS", .pfloat 3500, .pfloat 3400, .pint 5, .pfloat (-500)⟩ :=
  ⟨C8_roundtrip.2.2.2.2.1 [("TCS", ⟨.pfloat 3500, .pint 5, .pstr "2025-01-06", .pstr "98765"⟩)]
     (by decide),
   C8_roundtrip.2.2.2.2.2.2 ⟨.pstr "TCS", .pfloat 3500, .pfloat 3400, .pint 5, .pfloat (-500)⟩
     rfl rfl rfl rfl rfl⟩

/-- C10 (confirmed): when the minute-bar fetch raises or returns no bars,
`calculate_intraday_vwap_pair` caches `(None, None)` stamped with the
current time; every read for that token within the full TTL window then
returns `(None, None)` from the cache with no fetch at all (even if fresh
bars would now be available), and with `vwap_now = None` the VWAP entry
gate rejects the instrument while the exit test degenerates to the
stop-loss comparison alone — one transient fetch failure disables both
VWAP rules for the instrument for up to a whole TTL window. -/
theorem C10_negative_caching :
    ∀ (cache : VwapCache) (token : ℕ) (t1 t2 lb : ℚ) (fetch1 fetch2 : FetchResult)
      (lp : ℚ) (vp : Option ℚ),
      (alookup cache token = none ∨
        ∃ e, alookup cache token = some e ∧ ¬ (t1 - e.timestamp < VWAP_CACHE_TTL)) →
      (fetch1 = .failure ∨ fetch1 = .bars []) →
      t2 - t1 < VWAP_CACHE_TTL →
      calculate_intraday_vwap_pair cache token t1 lb fetch1 =
        ⟨none, none, aset cache token ⟨t1, none, none⟩, 1⟩ ∧
      alookup (calculate_intraday_vwap_pair cache token t1 lb fetch1).cache token =
        some ⟨t1, none, none⟩ ∧
      calculate_intraday_vwap_pair
          (calculate_intraday_vwap_pair cache token t1 lb fetch1).cache token t2 lb fetch2 =
        ⟨none, none, (calculate_intraday_vwap_pair cache token t1 lb fetch1).cache, 0⟩ ∧
      vwap_entry_ok lp none vp = false ∧
      (∀ ltp e : ℚ, exit_condition ltp e none vp =
        decide (ltp ≤ e * (1 - STOP_LOSS_PCT / 100))) := by
  intro cache token t1 t2 lb fetch1 fetch2 lp vp hmiss hfail httl
  have hr1 : calculate_intraday_vwap_pair cache token t1 lb fetch1 =
      ⟨none, none, aset cache token ⟨t1, none, none⟩, 1⟩ := by
    have hrec : vwap_recompute cache token t1 lb fetch1 =
        ⟨none, none, aset cache token ⟨t1, none, none⟩, 1⟩ := by
      rcases hfail with h | h <;> rw [h] <;> rfl
    rcases hmiss with hnone | ⟨e, he, hold⟩
    · simp only [calculate_intraday_vwap_pair, hnone, hrec]
    · simp only [calculate_intraday_vwap_pair, he, hold, if_false, hrec]
  refine ⟨hr1, ?_, ?_, ?_, ?_⟩
  · rw [hr1]
    exact alookup_aset_self cache token ⟨t1, none, none⟩
  · rw [hr1]
    simp only [calculate_intraday_vwap_pair,
      alookup_aset_self cache token ⟨t1, none, none⟩, httl, if_true]
  · rfl
  · intro ltp e
    simp [exit_condition, truthyQ]

/-- C10 witness: a fetch failure at t = 0 caches `(None, None)`; a read at
t = 100 — fresh bars now available — still serves the cached `(None, None)`
with no fetch. -/
theorem C10_witness :
    calculate_intraday_vwap_pair
        (calculate_intraday_vwap_pair [] 7 0 15 .failure).cache 7 100 15
        (.bars [⟨30, 10, 9, 9, some 100⟩]) =
      ⟨none, none, (calculate_intraday_vwap_pair [] 7 0 15 .failure).cache, 0⟩ :=
  (C10_negative_caching [] 7 0 100 15 .failure (.bars [⟨30, 10, 9, 9, some 100⟩]) 50 none
    (Or.inl rfl) (Or.inl rfl) (by norm_num [VWAP_CACHE_TTL])).2.2.1
